import Mathlib

/-!
# Token store of `tamanyan/oauth2` (`store/token.go`)

A shallow embedding of the gorm-backed token store: the row type `StoreItem`,
the operations `Create`, `RemoveByCode/Access/Refresh`, `GetByCode/Access/Refresh`,
the diagnostic writer `errorf` and the background loop `gc`.

The storage engine is modelled as the list of rows of the store's table, in
insertion order.  Every storage call takes the error the engine answers with
(`none` when the call goes through), so that failures of the engine are inputs
of the model.  Calls on the process-wide wait group and on the engine are
recorded in a trace of `Event`s.
-/

namespace TokenStore

/-! ## Time -/

/-- Go `time.Duration`: a signed count of nanoseconds. -/
abbrev Duration := Int

/-- Go `time.Time`, reduced to the instant it denotes: nanoseconds since the Unix epoch. -/
structure Time where
  unixNano : Int
  deriving DecidableEq, Repr

/-- `t.Add(d)`: the instant `d` nanoseconds after `t`. -/
def Time.Add (t : Time) (d : Duration) : Time := ⟨t.unixNano + d⟩

/-- `t.Unix()`: whole seconds since the epoch, rounded towards minus infinity. -/
def Time.Unix (t : Time) : Int := t.unixNano / 1000000000

/-! ## Token information -/

/-- Modelled from the spec: the token-info value (`oauth2.TokenInfo`, implemented by
`models.Token`), whose declaration is not among the sources.  It carries client ID,
user ID, redirect URI, scope and one (value, createdAt, expiresIn) triple for each of
code, access and refresh. -/
structure TokenInfo where
  ClientID : String
  UserID : String
  RedirectURI : String
  Scope : String
  Code : String
  CodeCreateAt : Time
  CodeExpiresIn : Duration
  Access : String
  AccessCreateAt : Time
  AccessExpiresIn : Duration
  Refresh : String
  RefreshCreateAt : Time
  RefreshExpiresIn : Duration
  deriving DecidableEq, Repr

/-- The getters of the `oauth2.TokenInfo` interface used by the store. -/
def TokenInfo.GetCode (info : TokenInfo) : String := info.Code
def TokenInfo.GetCodeCreateAt (info : TokenInfo) : Time := info.CodeCreateAt
def TokenInfo.GetCodeExpiresIn (info : TokenInfo) : Duration := info.CodeExpiresIn
def TokenInfo.GetAccess (info : TokenInfo) : String := info.Access
def TokenInfo.GetAccessCreateAt (info : TokenInfo) : Time := info.AccessCreateAt
def TokenInfo.GetAccessExpiresIn (info : TokenInfo) : Duration := info.AccessExpiresIn
def TokenInfo.GetRefresh (info : TokenInfo) : String := info.Refresh
def TokenInfo.GetRefreshCreateAt (info : TokenInfo) : Time := info.RefreshCreateAt
def TokenInfo.GetRefreshExpiresIn (info : TokenInfo) : Duration := info.RefreshExpiresIn

/-- The pair `json.Marshal` / `json.Unmarshal` at the token type.  `Marshal` answers the
payload or an error text; `Unmarshal` answers the (possibly partly filled) value together
with the error, as `toTokenInfo` hands both back. -/
structure JSONCodec where
  Marshal : TokenInfo → Except String String
  Unmarshal : String → TokenInfo × Option String

/-! ## Errors -/

/-- Errors answered by the storage engine: gorm's `ErrRecordNotFound` or any other failure. -/
inductive DBError where
  | ErrRecordNotFound
  | other (msg : String)
  deriving DecidableEq, Repr

/-- `gorm.IsRecordNotFoundError`. -/
def IsRecordNotFoundError (err : DBError) : Bool :=
  match err with
  | .ErrRecordNotFound => true
  | .other _ => false

/-- The text of `err.Error()`. -/
def DBError.Error (err : DBError) : String :=
  match err with
  | .ErrRecordNotFound => "record not found"
  | .other msg => msg

/-- Go `error` values handed back by the store: an engine error or a JSON error. -/
inductive Error where
  | db (e : DBError)
  | json (msg : String)
  deriving DecidableEq, Repr

/-! ## Rows and the store -/

/-- `StoreItem`: a row of the token table.  `ID`, `CreatedAt`, `UpdatedAt` and `DeletedAt`
are the fields of the embedded `gorm.Model`; `DeletedAt` is the soft-delete marker. -/
structure StoreItem where
  ID : Nat
  CreatedAt : Int
  UpdatedAt : Int
  DeletedAt : Option Int
  ExpiredAt : Int
  Code : String
  Access : String
  Refresh : String
  Data : String
  deriving DecidableEq, Repr

/-- The zero value `StoreItem{}` with `Data` set, as built at the top of `Create`. -/
def StoreItem.withData (data : String) : StoreItem :=
  { ID := 0, CreatedAt := 0, UpdatedAt := 0, DeletedAt := none, ExpiredAt := 0,
    Code := "", Access := "", Refresh := "", Data := data }

/-- A row is live when its soft-delete marker is unset (`deleted_at IS NULL`). -/
def StoreItem.live (r : StoreItem) : Bool := r.DeletedAt.isNone

/-- `Store`: the rows of `s.db.Table(s.tableName)` in insertion order and the diagnostic
writer `s.stdout` (`none` for a nil writer, otherwise the buffers written so far). -/
structure Store where
  rows : List StoreItem
  stdout : Option (List String)
  deriving DecidableEq, Repr

/-- Calls on the wait group `tokenGCWaitgroup` and on the storage engine. -/
inductive Event where
  | wgAdd
  | wgDone
  | wgWait
  | dbCount
  | dbDelete
  | dbFind
  | dbCreate
  deriving DecidableEq, Repr

/-! ## The storage engine (gorm) -/

/-- `Where(cond).Where("deleted_at IS NULL").Count(&count)`: the number of live rows
satisfying `cond`, or the engine's error. -/
def dbCount (fault : Option DBError) (cond : StoreItem → Bool) (rows : List StoreItem) :
    Except DBError Nat :=
  match fault with
  | some e => .error e
  | none => .ok ((rows.filter (fun r => r.live && cond r)).length)

/-- `Where(cond).Delete(&StoreItem{})`: the model has a `DeletedAt` field, so gorm stamps
`deleted_at` on the live rows satisfying `cond` and touches nothing else.  A failed call
changes nothing. -/
def dbDelete (fault : Option DBError) (dbNow : Int) (cond : StoreItem → Bool)
    (rows : List StoreItem) : List StoreItem × Option DBError :=
  match fault with
  | some e => (rows, some e)
  | none =>
    (rows.map (fun r => if r.live && cond r then { r with DeletedAt := some dbNow } else r),
      none)

/-- `Where(cond).Find(&item)` into a single struct: gorm selects the live rows satisfying
`cond`, scans each of them into `item` in turn (so the last one stays) and reports
`ErrRecordNotFound` when there was none. -/
def dbFind (fault : Option DBError) (cond : StoreItem → Bool) (rows : List StoreItem) :
    Except DBError StoreItem :=
  match fault with
  | some e => .error e
  | none =>
    match (rows.filter (fun r => r.live && cond r)).getLast? with
    | none => .error DBError.ErrRecordNotFound
    | some r => .ok r

/-- `Create(item)`: appends the row, the engine assigning the next `ID` and the two
timestamps.  A failed call changes nothing. -/
def dbCreate (fault : Option DBError) (dbNow : Int) (item : StoreItem)
    (rows : List StoreItem) : List StoreItem × Option DBError :=
  match fault with
  | some e => (rows, some e)
  | none =>
    (rows ++ [{ item with ID := rows.length + 1, CreatedAt := dbNow, UpdatedAt := dbNow }],
      none)

/-! ## The store's operations -/

/-- `SetStdout`: replaces the diagnostic writer (`none` for nil). -/
def SetStdout (stdout : Option (List String)) (s : Store) : Store :=
  { s with stdout := stdout }

/-- `errorf`: formats and writes to `s.stdout` unless the writer is nil. -/
def errorf (s : Store) (buf : String) : Store :=
  match s.stdout with
  | some out => { s with stdout := some (out ++ [buf]) }
  | none => s

/-- The row `Create` builds from the payload and the token information. -/
def newItem (data : String) (info : TokenInfo) : StoreItem :=
  let item := StoreItem.withData data
  if info.GetCode != "" then
    { item with
      Code := info.GetCode
      ExpiredAt := (info.GetCodeCreateAt.Add info.GetCodeExpiresIn).Unix }
  else
    let item := { item with
      Access := info.GetAccess
      ExpiredAt := (info.GetAccessCreateAt.Add info.GetAccessExpiresIn).Unix }
    if info.GetRefresh != "" then
      { item with
        Refresh := info.GetRefresh
        ExpiredAt := (info.GetRefreshCreateAt.Add info.GetRefreshExpiresIn).Unix }
    else item

/-- Outcome of an operation that changes the store. -/
structure WriteResult where
  store : Store
  err : Option Error
  trace : List Event
  deriving DecidableEq, Repr

/-- `Create`: marshals the token information, builds the row and inserts it. -/
def Create (codec : JSONCodec) (fault : Option DBError) (dbNow : Int) (info : TokenInfo)
    (s : Store) : WriteResult :=
  match codec.Marshal info with
  | .error msg => { store := s, err := some (.json msg), trace := [] }
  | .ok jv =>
    let item := newItem jv info
    let (rows, err) := dbCreate fault dbNow item s.rows
    { store := { s with rows := rows }, err := err.map Error.db, trace := [.dbCreate] }

/-- `RemoveByCode`: `Where("code = ?", code).Delete(&StoreItem{})`. -/
def RemoveByCode (fault : Option DBError) (dbNow : Int) (code : String) (s : Store) :
    WriteResult :=
  let (rows, err) := dbDelete fault dbNow (fun r => r.Code == code) s.rows
  { store := { s with rows := rows }, err := err.map Error.db, trace := [.dbDelete] }

/-- `RemoveByAccess`: `Where("access = ?", access).Delete(&StoreItem{})`. -/
def RemoveByAccess (fault : Option DBError) (dbNow : Int) (access : String) (s : Store) :
    WriteResult :=
  let (rows, err) := dbDelete fault dbNow (fun r => r.Access == access) s.rows
  { store := { s with rows := rows }, err := err.map Error.db, trace := [.dbDelete] }

/-- `RemoveByRefresh`: `Where("refresh = ?", refresh).Delete(&StoreItem{})`. -/
def RemoveByRefresh (fault : Option DBError) (dbNow : Int) (refresh : String) (s : Store) :
    WriteResult :=
  let (rows, err) := dbDelete fault dbNow (fun r => r.Refresh == refresh) s.rows
  { store := { s with rows := rows }, err := err.map Error.db, trace := [.dbDelete] }

/-- Outcome of a lookup: the Go pair `(oauth2.TokenInfo, error)` and the calls made. -/
structure GetResult where
  info : Option TokenInfo
  err : Option Error
  trace : List Event
  deriving DecidableEq, Repr

/-- `toTokenInfo`: unmarshals the payload and hands back the value with the error. -/
def toTokenInfo (codec : JSONCodec) (data : String) : Option TokenInfo × Option Error :=
  let (tm, err) := codec.Unmarshal data
  (some tm, err.map Error.json)

/-- `GetByCode`. -/
def GetByCode (codec : JSONCodec) (fault : Option DBError) (code : String) (s : Store) :
    GetResult :=
  if code == "" then { info := none, err := none, trace := [] }
  else
    match dbFind fault (fun r => r.Code == code) s.rows with
    | .error err =>
      if IsRecordNotFoundError err then
        { info := none, err := none, trace := [.wgWait, .dbFind] }
      else { info := none, err := some (.db err), trace := [.wgWait, .dbFind] }
    | .ok item =>
      let (tm, err) := toTokenInfo codec item.Data
      { info := tm, err := err, trace := [.wgWait, .dbFind] }

/-- `GetByAccess`. -/
def GetByAccess (codec : JSONCodec) (fault : Option DBError) (access : String) (s : Store) :
    GetResult :=
  if access == "" then { info := none, err := none, trace := [] }
  else
    match dbFind fault (fun r => r.Access == access) s.rows with
    | .error err =>
      if IsRecordNotFoundError err then
        { info := none, err := none, trace := [.wgWait, .dbFind] }
      else { info := none, err := some (.db err), trace := [.wgWait, .dbFind] }
    | .ok item =>
      let (tm, err) := toTokenInfo codec item.Data
      { info := tm, err := err, trace := [.wgWait, .dbFind] }

/-- `GetByRefresh`. -/
def GetByRefresh (codec : JSONCodec) (fault : Option DBError) (refresh : String) (s : Store) :
    GetResult :=
  if refresh == "" then { info := none, err := none, trace := [] }
  else
    match dbFind fault (fun r => r.Refresh == refresh) s.rows with
    | .error err =>
      if IsRecordNotFoundError err then
        { info := none, err := none, trace := [.wgWait, .dbFind] }
      else { info := none, err := some (.db err), trace := [.wgWait, .dbFind] }
    | .ok item =>
      let (tm, err) := toTokenInfo codec item.Data
      { info := tm, err := err, trace := [.wgWait, .dbFind] }

/-! ## The background sweep -/

/-- One receive on `s.ticker.C`: the clock reading `time.Now().Unix()` of the cycle, the
engine's clock for the soft-delete stamp, and the engine's answer to the count and to the
delete query. -/
structure Tick where
  now : Int
  dbNow : Int
  countErr : Option DBError
  deleteErr : Option DBError
  deriving DecidableEq, Repr

/-- Outcome of the loop `gc` over the ticks received. -/
structure GCResult where
  store : Store
  trace : List Event
  /-- True when the loop left through `return`; false when it is waiting for the next tick. -/
  returned : Bool
  deriving DecidableEq, Repr

/-- `gc`: the body of `for range s.ticker.C`, run over the ticks received so far. -/
def gc (ticks : List Tick) (s : Store) : GCResult :=
  match ticks with
  | [] => { store := s, trace := [], returned := false }
  | t :: rest =>
    match dbCount t.countErr (fun r => decide (r.ExpiredAt < t.now)) s.rows with
    | .error err =>
      { store := errorf s ("[ERROR]:" ++ err.Error ++ "\n"),
        trace := [.wgAdd, .dbCount, .wgDone], returned := true }
    | .ok count =>
      if count > 0 then
        let (rows, derr) := dbDelete t.deleteErr t.dbNow (fun r => decide (r.ExpiredAt < t.now)) s.rows
        let s1 : Store := { s with rows := rows }
        let s2 := match derr with
          | some err => errorf s1 ("[ERROR]:" ++ err.Error ++ "\n")
          | none => s1
        let r := gc rest s2
        { r with trace := [.wgAdd, .dbCount, .dbDelete, .wgDone] ++ r.trace }
      else
        let r := gc rest s
        { r with trace := [.wgAdd, .dbCount, .wgDone] ++ r.trace }

/-! ## Specification-side definitions -/

/-- The not-found outcome `(nil, nil)` of a lookup. -/
def GetResult.notFound (g : GetResult) : Prop := g.info = none ∧ g.err = none

/-- The error-handling contract of a lookup with a non-empty key, stated from the claim:
`q` is the answer of the storage query and `g` the outcome of the call. -/
def lookupContract (codec : JSONCodec) (q : Except DBError StoreItem) (g : GetResult) : Prop :=
  (g.notFound ↔ ∃ e, q = .error e ∧ IsRecordNotFoundError e = true) ∧
  (∀ e, q = .error e → IsRecordNotFoundError e = false →
    g.info = none ∧ g.err = some (.db e)) ∧
  (∀ item msg, q = .ok item → (codec.Unmarshal item.Data).2 = some msg →
    g.err = some (.json msg) ∧ ¬ g.notFound)

/-- The row fields `(code, access, refresh, expiredAt)` in the three-step precedence the
specification gives for the derivation. -/
def derivedRow (info : TokenInfo) : String × String × String × Int :=
  if info.Code ≠ "" then
    (info.Code, "", "", (info.CodeCreateAt.Add info.CodeExpiresIn).Unix)
  else if info.Refresh ≠ "" then
    ("", info.Access, info.Refresh, (info.RefreshCreateAt.Add info.RefreshExpiresIn).Unix)
  else
    ("", info.Access, "", (info.AccessCreateAt.Add info.AccessExpiresIn).Unix)

/-- The effect of a soft delete on one row: stamped when it is live and satisfies `cond`,
unchanged otherwise. -/
def stamped (dbNow : Int) (cond : StoreItem → Prop) [DecidablePred cond] (r : StoreItem) :
    StoreItem :=
  if r.DeletedAt = none ∧ cond r then { r with DeletedAt := some dbNow } else r

/-! ## Sample data for the worked examples -/

/-- A code-grant token: code `abc`, created at second 0, valid for 10 seconds. -/
def sampleCode : TokenInfo :=
  { ClientID := "c1", UserID := "u1", RedirectURI := "", Scope := "all",
    Code := "abc", CodeCreateAt := ⟨0⟩, CodeExpiresIn := 10000000000,
    Access := "", AccessCreateAt := ⟨0⟩, AccessExpiresIn := 0,
    Refresh := "", RefreshCreateAt := ⟨0⟩, RefreshExpiresIn := 0 }

/-- A second code-grant token under the same code `abc`, valid for 100 seconds. -/
def sampleCodeLong : TokenInfo :=
  { sampleCode with UserID := "u2", CodeExpiresIn := 100000000000 }

/-- An access token `tok` (one minute) with refresh token `ref` (one hour). -/
def sampleAccess : TokenInfo :=
  { ClientID := "c1", UserID := "u1", RedirectURI := "", Scope := "all",
    Code := "", CodeCreateAt := ⟨0⟩, CodeExpiresIn := 0,
    Access := "tok", AccessCreateAt := ⟨0⟩, AccessExpiresIn := 60000000000,
    Refresh := "ref", RefreshCreateAt := ⟨0⟩, RefreshExpiresIn := 3600000000000 }

/-- The zero value `models.Token{}`. -/
def zeroToken : TokenInfo :=
  { ClientID := "", UserID := "", RedirectURI := "", Scope := "",
    Code := "", CodeCreateAt := ⟨0⟩, CodeExpiresIn := 0,
    Access := "", AccessCreateAt := ⟨0⟩, AccessExpiresIn := 0,
    Refresh := "", RefreshCreateAt := ⟨0⟩, RefreshExpiresIn := 0 }

/-- A codec for the worked examples: it knows the payloads of the three sample tokens,
fails to marshal any other value and fails to unmarshal any other payload. -/
def sampleCodec : JSONCodec where
  Marshal info :=
    if info = sampleCode then .ok "code-abc-10"
    else if info = sampleCodeLong then .ok "code-abc-100"
    else if info = sampleAccess then .ok "access-tok-ref"
    else .error "json: unsupported value"
  Unmarshal data :=
    if data = "code-abc-10" then (sampleCode, none)
    else if data = "code-abc-100" then (sampleCodeLong, none)
    else if data = "access-tok-ref" then (sampleAccess, none)
    else (zeroToken, some "invalid character")

/-- The store right after `NewStoreWithDB` on an empty table, writing to a fresh buffer. -/
def emptyStore : Store := { rows := [], stdout := some [] }

/-- One call of `RemoveByCode`, `RemoveByAccess` or `RemoveByRefresh`: the engine's answer,
the engine's clock and the key. -/
inductive RemoveCall where
  | byCode (fault : Option DBError) (dbNow : Int) (key : String)
  | byAccess (fault : Option DBError) (dbNow : Int) (key : String)
  | byRefresh (fault : Option DBError) (dbNow : Int) (key : String)
  deriving DecidableEq, Repr

/-- The store after one removal call. -/
def RemoveCall.run (c : RemoveCall) (s : Store) : Store :=
  match c with
  | .byCode fault dbNow key => (RemoveByCode fault dbNow key s).store
  | .byAccess fault dbNow key => (RemoveByAccess fault dbNow key s).store
  | .byRefresh fault dbNow key => (RemoveByRefresh fault dbNow key s).store

/-- The store after a sequence of removal calls, first call first. -/
def runRemoves (calls : List RemoveCall) (s : Store) : Store :=
  match calls with
  | [] => s
  | c :: rest => runRemoves rest (c.run s)

/-- The store holding the two sample code tokens, both created under the code `abc`. -/
def duplicateStore : Store :=
  (Create sampleCodec none 1 sampleCodeLong (Create sampleCodec none 0 sampleCode emptyStore).store).store

/-- A tick at second 50 on which the engine answers both queries. -/
def tick50 : Tick := { now := 50, dbNow := 50, countErr := none, deleteErr := none }

/-- A tick at second 50 on which the count query fails. -/
def tickCountFails : Tick :=
  { now := 50, dbNow := 50, countErr := some (DBError.other "db down"), deleteErr := none }

/-- A tick at second 50 on which the count succeeds and the bulk delete fails. -/
def tickDeleteFails : Tick :=
  { now := 50, dbNow := 50, countErr := none, deleteErr := some (DBError.other "locked") }

/-! ## Facts about the storage engine -/

theorem dbFind_ok_mem {cond : StoreItem → Bool} {rows : List StoreItem} {r : StoreItem}
    {fault : Option DBError} (h : dbFind fault cond rows = .ok r) :
    fault = none ∧ r ∈ rows ∧ r.live = true ∧ cond r = true := by
  unfold dbFind at h
  cases fault with
  | some e => simp at h
  | none =>
    simp only at h
    cases hl : (rows.filter (fun r => r.live && cond r)).getLast? with
    | none => rw [hl] at h; simp at h
    | some x =>
      rw [hl] at h
      simp only [Except.ok.injEq] at h
      subst h
      obtain ⟨ys, hys⟩ := List.getLast?_eq_some_iff.mp hl
      have hx : x ∈ rows.filter (fun r => r.live && cond r) := by
        rw [hys]; simp
      have := List.mem_filter.mp hx
      simp only [Bool.and_eq_true] at this
      exact ⟨rfl, this.1, this.2.1, this.2.2⟩

theorem dbFind_none_of_no_match {cond : StoreItem → Bool} {rows : List StoreItem}
    (h : ∀ r ∈ rows, r.live = true → cond r = false) :
    dbFind none cond rows = .error DBError.ErrRecordNotFound := by
  have hnil : rows.filter (fun r => r.live && cond r) = [] := by
    apply List.filter_eq_nil_iff.mpr
    intro a ha
    cases hlive : a.live with
    | false => simp
    | true => simp [h a ha hlive]
  simp [dbFind, hnil]

theorem dbFind_append_fresh (cond : StoreItem → Bool) (rows : List StoreItem)
    (row : StoreItem) (hrows : ∀ r ∈ rows, r.live = true → cond r = false)
    (hlive : row.live = true) (hcond : cond row = true) :
    dbFind none cond (rows ++ [row]) = .ok row := by
  have hnil : rows.filter (fun r => r.live && cond r) = [] := by
    apply List.filter_eq_nil_iff.mpr
    intro a ha
    cases hl : a.live with
    | false => simp
    | true => simp [hrows a ha hl]
  simp [dbFind, List.filter_append, hnil, hlive, hcond]

theorem dbDelete_no_live_match (t : Int) (cond : StoreItem → Bool) (rows : List StoreItem) :
    ∀ r ∈ (dbDelete none t cond rows).1, r.live = true → cond r = false := by
  intro r hr hlive
  simp only [dbDelete, List.mem_map] at hr
  obtain ⟨a, _, hra⟩ := hr
  by_cases hc : (a.live && cond a) = true
  · rw [if_pos hc] at hra
    subst hra
    simp [StoreItem.live] at hlive
  · rw [if_neg hc] at hra
    subst hra
    simpa [hlive] using hc

theorem dbDelete_of_no_match (t : Int) (cond : StoreItem → Bool) (rows : List StoreItem)
    (h : ∀ r ∈ rows, r.live = true → cond r = false) :
    dbDelete none t cond rows = (rows, none) := by
  have hmap : rows.map (fun r => if (r.live && cond r) = true then
      { r with DeletedAt := some t } else r) = rows := by
    conv_rhs => rw [← List.map_id rows]
    apply List.map_congr_left
    intro a ha
    cases hl : a.live with
    | false => simp
    | true => simp [h a ha hl]
  simp only [dbDelete, hmap]

theorem dbDelete_idem (t1 t2 : Int) (cond : StoreItem → Bool) (rows : List StoreItem) :
    dbDelete none t2 cond (dbDelete none t1 cond rows).1 =
      ((dbDelete none t1 cond rows).1, none) :=
  dbDelete_of_no_match t2 cond _ (dbDelete_no_live_match t1 cond rows)

theorem dbDelete_eq_stamped (t : Int) (cond : StoreItem → Prop) [DecidablePred cond]
    (rows : List StoreItem) :
    dbDelete none t (fun r => decide (cond r)) rows = (rows.map (stamped t cond), none) := by
  simp only [dbDelete, Prod.mk.injEq, and_true]
  apply List.map_congr_left
  intro a _
  simp [stamped, StoreItem.live, Option.isNone_iff_eq_none]

/-! ## Lookups: empty key and error handling -/

/-- C7: with the empty key, `GetByCode`, `GetByAccess` and `GetByRefresh` each hand back
`(nil, nil)` with an empty trace, that is without waiting on the wait group and without a
storage query, whatever rows the table holds and whatever the engine would answer. -/
theorem GetBy_empty_key (codec : JSONCodec) (fault : Option DBError) (s : Store) :
    GetByCode codec fault "" s = { info := none, err := none, trace := [] } ∧
    GetByAccess codec fault "" s = { info := none, err := none, trace := [] } ∧
    GetByRefresh codec fault "" s = { info := none, err := none, trace := [] } := by
  refine ⟨?_, ?_, ?_⟩
  · simp [GetByCode]
  · simp [GetByAccess]
  · simp [GetByRefresh]

theorem lookupContract_of_shape (codec : JSONCodec) (q : Except DBError StoreItem)
    (g : GetResult)
    (hg : g = match q with
      | .error err =>
        if IsRecordNotFoundError err then
          { info := none, err := none, trace := [.wgWait, .dbFind] }
        else { info := none, err := some (.db err), trace := [.wgWait, .dbFind] }
      | .ok item =>
        { info := (toTokenInfo codec item.Data).1, err := (toTokenInfo codec item.Data).2,
          trace := [.wgWait, .dbFind] }) :
    lookupContract codec q g := by
  subst hg
  cases q with
  | error e =>
    cases hnf : IsRecordNotFoundError e with
    | true =>
      refine ⟨?_, ?_, ?_⟩
      · simp [GetResult.notFound, hnf]
      · intro e2 he2 hf
        simp only [Except.error.injEq] at he2
        subst he2
        rw [hnf] at hf
        cases hf
      · intro item msg h
        cases h
    | false =>
      refine ⟨?_, ?_, ?_⟩
      · simp [GetResult.notFound, hnf]
      · intro e2 he2 _
        simp only [Except.error.injEq] at he2
        subst he2
        simp [hnf]
      · intro item msg h
        cases h
  | ok item =>
    refine ⟨?_, ?_, ?_⟩
    · simp [GetResult.notFound, toTokenInfo]
    · intro e h
      cases h
    · intro it msg h hmsg
      simp only [Except.ok.injEq] at h
      subst h
      simp [GetResult.notFound, toTokenInfo, hmsg]

/-- C8: for a non-empty key, each of `GetByCode`, `GetByAccess`, `GetByRefresh` hands back
`(nil, nil)` exactly when the storage query reports record-not-found, hands any other
storage error back unchanged with a nil value, and, when a row is found whose payload
fails to decode, hands back that decode error and not the not-found outcome. -/
theorem GetBy_error_contract (codec : JSONCodec) (fault : Option DBError) (key : String)
    (s : Store) (hkey : key ≠ "") :
    lookupContract codec (dbFind fault (fun r => r.Code == key) s.rows)
      (GetByCode codec fault key s) ∧
    lookupContract codec (dbFind fault (fun r => r.Access == key) s.rows)
      (GetByAccess codec fault key s) ∧
    lookupContract codec (dbFind fault (fun r => r.Refresh == key) s.rows)
      (GetByRefresh codec fault key s) := by
  refine ⟨?_, ?_, ?_⟩
  · apply lookupContract_of_shape
    simp only [GetByCode, beq_iff_eq, hkey, if_false]
  · apply lookupContract_of_shape
    simp only [GetByAccess, beq_iff_eq, hkey, if_false]
  · apply lookupContract_of_shape
    simp only [GetByRefresh, beq_iff_eq, hkey, if_false]

/-- Witness for C8: the contract at key `abc` on a table holding the sample code row, with
the engine failing. -/
theorem GetBy_error_contract_witness :
    ("abc" : String) ≠ "" ∧
    lookupContract sampleCodec
      (dbFind (some (DBError.other "connection lost")) (fun r => r.Code == "abc")
        (Create sampleCodec none 0 sampleCode emptyStore).store.rows)
      (GetByCode sampleCodec (some (DBError.other "connection lost")) "abc"
        (Create sampleCodec none 0 sampleCode emptyStore).store) :=
  ⟨by decide, (GetBy_error_contract sampleCodec (some (DBError.other "connection lost")) "abc"
    (Create sampleCodec none 0 sampleCode emptyStore).store (by decide)).1⟩

/-! ## Removal -/

theorem remove_then_find (cond : StoreItem → Bool) (fault : Option DBError) (t : Int)
    (rows : List StoreItem) (h : (dbDelete fault t cond rows).2 = none) :
    fault = none ∧
    dbFind none cond (dbDelete fault t cond rows).1 = .error DBError.ErrRecordNotFound := by
  cases fault with
  | some e => simp [dbDelete] at h
  | none => exact ⟨rfl, dbFind_none_of_no_match (dbDelete_no_live_match t cond rows)⟩

/-- C6: for a non-empty key `k`, once `RemoveByCode k` has returned no error, `GetByCode k`
hands back not-found `(nil, nil)`, and a second `RemoveByCode k` returns no error and
leaves the store as it is; `RemoveByCode k` on a store with no live row under `k` also
returns no error and changes nothing.  The same holds for the access and the refresh
variants.  (The lookups and the second removals are taken with the engine answering.) -/
theorem RemoveBy_then_GetBy (codec : JSONCodec) (fault : Option DBError) (t1 t2 : Int)
    (k : String) (s : Store) (hk : k ≠ "") :
    (((RemoveByCode fault t1 k s).err = none →
        GetByCode codec none k (RemoveByCode fault t1 k s).store =
          { info := none, err := none, trace := [.wgWait, .dbFind] } ∧
        RemoveByCode none t2 k (RemoveByCode fault t1 k s).store =
          { store := (RemoveByCode fault t1 k s).store, err := none, trace := [.dbDelete] }) ∧
      ((∀ r ∈ s.rows, r.DeletedAt = none → r.Code ≠ k) →
        RemoveByCode none t1 k s = { store := s, err := none, trace := [.dbDelete] })) ∧
    (((RemoveByAccess fault t1 k s).err = none →
        GetByAccess codec none k (RemoveByAccess fault t1 k s).store =
          { info := none, err := none, trace := [.wgWait, .dbFind] } ∧
        RemoveByAccess none t2 k (RemoveByAccess fault t1 k s).store =
          { store := (RemoveByAccess fault t1 k s).store, err := none, trace := [.dbDelete] }) ∧
      ((∀ r ∈ s.rows, r.DeletedAt = none → r.Access ≠ k) →
        RemoveByAccess none t1 k s = { store := s, err := none, trace := [.dbDelete] })) ∧
    (((RemoveByRefresh fault t1 k s).err = none →
        GetByRefresh codec none k (RemoveByRefresh fault t1 k s).store =
          { info := none, err := none, trace := [.wgWait, .dbFind] } ∧
        RemoveByRefresh none t2 k (RemoveByRefresh fault t1 k s).store =
          { store := (RemoveByRefresh fault t1 k s).store, err := none, trace := [.dbDelete] }) ∧
      ((∀ r ∈ s.rows, r.DeletedAt = none → r.Refresh ≠ k) →
        RemoveByRefresh none t1 k s = { store := s, err := none, trace := [.dbDelete] })) := by
  refine ⟨⟨?_, ?_⟩, ⟨?_, ?_⟩, ⟨?_, ?_⟩⟩
  · intro h
    have h2 : (dbDelete fault t1 (fun r => r.Code == k) s.rows).2 = none := by
      simpa [RemoveByCode] using h
    obtain ⟨hf, hfind⟩ := remove_then_find _ fault t1 s.rows h2
    subst hf
    refine ⟨?_, ?_⟩
    · simp [GetByCode, RemoveByCode, hk, hfind, IsRecordNotFoundError]
    · simp [RemoveByCode, dbDelete_idem]
  · intro h
    have := dbDelete_of_no_match t1 (fun r => r.Code == k) s.rows (by
      intro r hr hl
      have := h r hr (by simpa [StoreItem.live, Option.isNone_iff_eq_none] using hl)
      simpa using this)
    simp [RemoveByCode, this]
  · intro h
    have h2 : (dbDelete fault t1 (fun r => r.Access == k) s.rows).2 = none := by
      simpa [RemoveByAccess] using h
    obtain ⟨hf, hfind⟩ := remove_then_find _ fault t1 s.rows h2
    subst hf
    refine ⟨?_, ?_⟩
    · simp [GetByAccess, RemoveByAccess, hk, hfind, IsRecordNotFoundError]
    · simp [RemoveByAccess, dbDelete_idem]
  · intro h
    have := dbDelete_of_no_match t1 (fun r => r.Access == k) s.rows (by
      intro r hr hl
      have := h r hr (by simpa [StoreItem.live, Option.isNone_iff_eq_none] using hl)
      simpa using this)
    simp [RemoveByAccess, this]
  · intro h
    have h2 : (dbDelete fault t1 (fun r => r.Refresh == k) s.rows).2 = none := by
      simpa [RemoveByRefresh] using h
    obtain ⟨hf, hfind⟩ := remove_then_find _ fault t1 s.rows h2
    subst hf
    refine ⟨?_, ?_⟩
    · simp [GetByRefresh, RemoveByRefresh, hk, hfind, IsRecordNotFoundError]
    · simp [RemoveByRefresh, dbDelete_idem]
  · intro h
    have := dbDelete_of_no_match t1 (fun r => r.Refresh == k) s.rows (by
      intro r hr hl
      have := h r hr (by simpa [StoreItem.live, Option.isNone_iff_eq_none] using hl)
      simpa using this)
    simp [RemoveByRefresh, this]

/-- Witness for C6: removing the code `abc` from the store holding the sample code row. -/
theorem RemoveBy_then_GetBy_witness :
    ("abc" : String) ≠ "" ∧
    (RemoveByCode none 5 "abc" (Create sampleCodec none 0 sampleCode emptyStore).store).err
      = none ∧
    GetByCode sampleCodec none "abc"
      (RemoveByCode none 5 "abc" (Create sampleCodec none 0 sampleCode emptyStore).store).store
      = { info := none, err := none, trace := [.wgWait, .dbFind] } :=
  ⟨by decide, by rfl,
    ((RemoveBy_then_GetBy sampleCodec none 5 6 "abc"
      (Create sampleCodec none 0 sampleCode emptyStore).store (by decide)).1.1 (by rfl)).1⟩

/-! ## Creation -/

theorem newItem_fields (data : String) (info : TokenInfo) :
    ((newItem data info).Code, (newItem data info).Access, (newItem data info).Refresh,
      (newItem data info).ExpiredAt) = derivedRow info ∧
    (newItem data info).Data = data ∧ (newItem data info).DeletedAt = none := by
  by_cases hc : info.Code = ""
  · by_cases hr : info.Refresh = ""
    · simp [newItem, derivedRow, StoreItem.withData, TokenInfo.GetCode, TokenInfo.GetRefresh,
        TokenInfo.GetAccess, TokenInfo.GetAccessCreateAt, TokenInfo.GetAccessExpiresIn, hc, hr]
    · simp [newItem, derivedRow, StoreItem.withData, TokenInfo.GetCode, TokenInfo.GetRefresh,
        TokenInfo.GetAccess, TokenInfo.GetRefreshCreateAt, TokenInfo.GetRefreshExpiresIn, hc, hr]
  · simp [newItem, derivedRow, StoreItem.withData, TokenInfo.GetCode,
      TokenInfo.GetCodeCreateAt, TokenInfo.GetCodeExpiresIn, hc]

theorem Create_rows (codec : JSONCodec) (t : Int) (info : TokenInfo) (s : Store) (jv : String)
    (h : codec.Marshal info = .ok jv) :
    Create codec none t info s =
      { store := { s with rows := s.rows ++
          [{ newItem jv info with ID := s.rows.length + 1, CreatedAt := t, UpdatedAt := t }] },
        err := none, trace := [.dbCreate] } := by
  simp [Create, h, dbCreate]

/-- C2: when `Create` inserts a row (the payload marshals and the engine answers), the
table grows by exactly one live row whose `(code, access, refresh, expiredAt)` are the
three-step derivation: the code with its expiry if the code is non-empty, otherwise access
and refresh with the refresh expiry if the refresh is non-empty, otherwise the access with
the access expiry; the payload is the marshalled value. -/
theorem Create_row_derivation (codec : JSONCodec) (t : Int) (info : TokenInfo) (s : Store)
    (jv : String) (h : codec.Marshal info = .ok jv) :
    ∃ row, (Create codec none t info s).store.rows = s.rows ++ [row] ∧
      (Create codec none t info s).err = none ∧
      (row.Code, row.Access, row.Refresh, row.ExpiredAt) = derivedRow info ∧
      row.Data = jv ∧ row.DeletedAt = none := by
  rw [Create_rows codec t info s jv h]
  exact ⟨_, rfl, rfl, (newItem_fields jv info).1, (newItem_fields jv info).2.1,
    (newItem_fields jv info).2.2⟩

/-- Witness for C2: creating the sample access/refresh token in the empty store. -/
theorem Create_row_derivation_witness :
    sampleCodec.Marshal sampleAccess = .ok "access-tok-ref" ∧
    ∃ row, (Create sampleCodec none 7 sampleAccess emptyStore).store.rows
        = emptyStore.rows ++ [row] ∧
      (Create sampleCodec none 7 sampleAccess emptyStore).err = none ∧
      (row.Code, row.Access, row.Refresh, row.ExpiredAt) = derivedRow sampleAccess ∧
      row.Data = "access-tok-ref" ∧ row.DeletedAt = none :=
  ⟨by rfl, Create_row_derivation sampleCodec 7 sampleAccess emptyStore "access-tok-ref"
    (by rfl)⟩

/-! ## Removal with any key -/

theorem RemoveByCode_eq (t : Int) (k : String) (s : Store) :
    RemoveByCode none t k s =
      { store := { s with rows := s.rows.map (stamped t (fun r => r.Code = k)) },
        err := none, trace := [.dbDelete] } := by
  simp only [RemoveByCode, dbDelete, Option.map_none', WriteResult.mk.injEq, Store.mk.injEq,
    and_true]
  apply List.map_congr_left
  intro a _
  simp [stamped, StoreItem.live, Option.isNone_iff_eq_none]

theorem RemoveByAccess_eq (t : Int) (k : String) (s : Store) :
    RemoveByAccess none t k s =
      { store := { s with rows := s.rows.map (stamped t (fun r => r.Access = k)) },
        err := none, trace := [.dbDelete] } := by
  simp only [RemoveByAccess, dbDelete, Option.map_none', WriteResult.mk.injEq, Store.mk.injEq,
    and_true]
  apply List.map_congr_left
  intro a _
  simp [stamped, StoreItem.live, Option.isNone_iff_eq_none]

theorem RemoveByRefresh_eq (t : Int) (k : String) (s : Store) :
    RemoveByRefresh none t k s =
      { store := { s with rows := s.rows.map (stamped t (fun r => r.Refresh = k)) },
        err := none, trace := [.dbDelete] } := by
  simp only [RemoveByRefresh, dbDelete, Option.map_none', WriteResult.mk.injEq,
    Store.mk.injEq, and_true]
  apply List.map_congr_left
  intro a _
  simp [stamped, StoreItem.live, Option.isNone_iff_eq_none]

/-- C10: the removals have no empty-key guard.  For every key `k`, the empty string
included, `RemoveByCode k` (engine answering) stamps exactly the live rows whose code is
`k` and leaves every other row, and the writer, as they are; likewise for access and
refresh.  Hence on the store left by `Create info`: if `info` has no code, its row is
soft-deleted by `RemoveByCode ""`; if it has a code, its row is soft-deleted by
`RemoveByAccess ""` and by `RemoveByRefresh ""`; if it has neither code nor refresh, its
row is soft-deleted by `RemoveByRefresh ""`. -/
theorem RemoveBy_any_key (t : Int) (k : String) (s : Store) :
    (RemoveByCode none t k s =
        { store := { s with rows := s.rows.map (stamped t (fun r => r.Code = k)) },
          err := none, trace := [.dbDelete] } ∧
      RemoveByAccess none t k s =
        { store := { s with rows := s.rows.map (stamped t (fun r => r.Access = k)) },
          err := none, trace := [.dbDelete] } ∧
      RemoveByRefresh none t k s =
        { store := { s with rows := s.rows.map (stamped t (fun r => r.Refresh = k)) },
          err := none, trace := [.dbDelete] }) ∧
    (∀ (codec : JSONCodec) (info : TokenInfo) (jv : String) (t0 : Int),
      codec.Marshal info = .ok jv →
      ∃ row, (Create codec none t0 info s).store.rows = s.rows ++ [row] ∧
        row.DeletedAt = none ∧
        (info.Code = "" →
          (RemoveByCode none t "" (Create codec none t0 info s).store).store.rows =
            s.rows.map (stamped t (fun r => r.Code = "")) ++
              [{ row with DeletedAt := some t }]) ∧
        (info.Code ≠ "" →
          (RemoveByAccess none t "" (Create codec none t0 info s).store).store.rows =
            s.rows.map (stamped t (fun r => r.Access = "")) ++
              [{ row with DeletedAt := some t }] ∧
          (RemoveByRefresh none t "" (Create codec none t0 info s).store).store.rows =
            s.rows.map (stamped t (fun r => r.Refresh = "")) ++
              [{ row with DeletedAt := some t }]) ∧
        (info.Code = "" → info.Refresh = "" →
          (RemoveByRefresh none t "" (Create codec none t0 info s).store).store.rows =
            s.rows.map (stamped t (fun r => r.Refresh = "")) ++
              [{ row with DeletedAt := some t }])) := by
  refine ⟨⟨RemoveByCode_eq t k s, RemoveByAccess_eq t k s, RemoveByRefresh_eq t k s⟩, ?_⟩
  intro codec info jv t0 hm
  rw [Create_rows codec t0 info s jv hm]
  refine ⟨_, rfl, (newItem_fields jv info).2.2, ?_, ?_, ?_⟩
  · intro hc
    by_cases hr : info.Refresh = "" <;>
      simp [RemoveByCode_eq, stamped, newItem, StoreItem.withData, TokenInfo.GetCode,
        TokenInfo.GetRefresh, hc, hr]
  · intro hc
    constructor
    · simp [RemoveByAccess_eq, stamped, newItem, StoreItem.withData, TokenInfo.GetCode, hc]
    · simp [RemoveByRefresh_eq, stamped, newItem, StoreItem.withData, TokenInfo.GetCode, hc]
  · intro hc hr
    simp [RemoveByRefresh_eq, stamped, newItem, StoreItem.withData, TokenInfo.GetCode,
      TokenInfo.GetRefresh, hc, hr]

/-- Witness for C10: `RemoveByAccess ""` soft-deletes the row just created for the sample
code token. -/
theorem RemoveBy_any_key_witness :
    sampleCodec.Marshal sampleCode = .ok "code-abc-10" ∧ sampleCode.Code ≠ "" ∧
    ∃ row, (Create sampleCodec none 0 sampleCode emptyStore).store.rows
        = emptyStore.rows ++ [row] ∧
      (RemoveByAccess none 3 "" (Create sampleCodec none 0 sampleCode emptyStore).store).store.rows
        = emptyStore.rows.map (stamped 3 (fun r => r.Access = "")) ++
            [{ row with DeletedAt := some 3 }] :=
  ⟨by rfl, by decide,
    match (RemoveBy_any_key 3 "" emptyStore).2 sampleCodec sampleCode "code-abc-10" 0
      (by rfl) with
    | ⟨row, hrows, _, _, hcode, _⟩ => ⟨row, hrows, (hcode (by decide)).1⟩⟩

/-! ## Creation followed by a lookup -/

/-- C5: let `info` be a token whose payload round-trips through the codec (it marshals to
`jv` and `jv` unmarshals to `info` without error).  After `Create info`, with the engine
answering: if `info` has a code and no other live row carries it, `GetByCode` with it
returns `info` and no error; if `info` has no code but an access (respectively a refresh)
that no other live row carries, `GetByAccess` (respectively `GetByRefresh`) with it returns
`info` and no error. -/
theorem Create_then_GetBy (codec : JSONCodec) (t : Int) (info : TokenInfo) (s : Store)
    (jv : String) (hm : codec.Marshal info = .ok jv)
    (hu : codec.Unmarshal jv = (info, none)) :
    (info.Code ≠ "" → (∀ r ∈ s.rows, r.DeletedAt = none → r.Code ≠ info.Code) →
      GetByCode codec none info.Code (Create codec none t info s).store =
        { info := some info, err := none, trace := [.wgWait, .dbFind] }) ∧
    (info.Code = "" → info.Access ≠ "" →
      (∀ r ∈ s.rows, r.DeletedAt = none → r.Access ≠ info.Access) →
      GetByAccess codec none info.Access (Create codec none t info s).store =
        { info := some info, err := none, trace := [.wgWait, .dbFind] }) ∧
    (info.Code = "" → info.Refresh ≠ "" →
      (∀ r ∈ s.rows, r.DeletedAt = none → r.Refresh ≠ info.Refresh) →
      GetByRefresh codec none info.Refresh (Create codec none t info s).store =
        { info := some info, err := none, trace := [.wgWait, .dbFind] }) := by
  rw [Create_rows codec t info s jv hm]
  refine ⟨?_, ?_, ?_⟩
  · intro hc hfresh
    have hfind := dbFind_append_fresh (fun r => r.Code == info.Code) s.rows
      { newItem jv info with ID := s.rows.length + 1, CreatedAt := t, UpdatedAt := t }
      (by
        intro r hr hl
        have := hfresh r hr (by simpa [StoreItem.live, Option.isNone_iff_eq_none] using hl)
        simpa using this)
      (by simp [StoreItem.live, (newItem_fields jv info).2.2])
      (by simp [newItem, TokenInfo.GetCode, hc])
    simp only [GetByCode, beq_iff_eq, hc, if_false, hfind]
    simp [toTokenInfo, (newItem_fields jv info).2.1, hu]
  · intro hc ha hfresh
    have hfind := dbFind_append_fresh (fun r => r.Access == info.Access) s.rows
      { newItem jv info with ID := s.rows.length + 1, CreatedAt := t, UpdatedAt := t }
      (by
        intro r hr hl
        have := hfresh r hr (by simpa [StoreItem.live, Option.isNone_iff_eq_none] using hl)
        simpa using this)
      (by simp [StoreItem.live, (newItem_fields jv info).2.2])
      (by by_cases hr : info.Refresh = "" <;>
            simp [newItem, TokenInfo.GetCode, TokenInfo.GetAccess, TokenInfo.GetRefresh, hc, hr])
    simp only [GetByAccess, beq_iff_eq, ha, if_false, hfind]
    simp [toTokenInfo, (newItem_fields jv info).2.1, hu]
  · intro hc hr hfresh
    have hfind := dbFind_append_fresh (fun r => r.Refresh == info.Refresh) s.rows
      { newItem jv info with ID := s.rows.length + 1, CreatedAt := t, UpdatedAt := t }
      (by
        intro r hr hl
        have := hfresh r hr (by simpa [StoreItem.live, Option.isNone_iff_eq_none] using hl)
        simpa using this)
      (by simp [StoreItem.live, (newItem_fields jv info).2.2])
      (by simp [newItem, TokenInfo.GetCode, TokenInfo.GetRefresh, hc, hr])
    simp only [GetByRefresh, beq_iff_eq, hr, if_false, hfind]
    simp [toTokenInfo, (newItem_fields jv info).2.1, hu]

/-- Witness for C5: the sample code token and the sample access/refresh token, each
created in the empty store and read back under its keys. -/
theorem Create_then_GetBy_witness :
    (sampleCodec.Marshal sampleCode = .ok "code-abc-10" ∧
      sampleCodec.Unmarshal "code-abc-10" = (sampleCode, none) ∧
      GetByCode sampleCodec none "abc" (Create sampleCodec none 0 sampleCode emptyStore).store =
        { info := some sampleCode, err := none, trace := [.wgWait, .dbFind] }) ∧
    (sampleCodec.Marshal sampleAccess = .ok "access-tok-ref" ∧
      sampleCodec.Unmarshal "access-tok-ref" = (sampleAccess, none) ∧
      GetByAccess sampleCodec none "tok"
          (Create sampleCodec none 0 sampleAccess emptyStore).store =
        { info := some sampleAccess, err := none, trace := [.wgWait, .dbFind] } ∧
      GetByRefresh sampleCodec none "ref"
          (Create sampleCodec none 0 sampleAccess emptyStore).store =
        { info := some sampleAccess, err := none, trace := [.wgWait, .dbFind] }) :=
  ⟨⟨by rfl, by rfl,
      (Create_then_GetBy sampleCodec 0 sampleCode emptyStore "code-abc-10" (by rfl) (by rfl)).1
        (by decide) (by simp [emptyStore])⟩,
    ⟨by rfl, by rfl,
      (Create_then_GetBy sampleCodec 0 sampleAccess emptyStore "access-tok-ref" (by rfl)
        (by rfl)).2.1 (by rfl) (by decide) (by simp [emptyStore]),
      (Create_then_GetBy sampleCodec 0 sampleAccess emptyStore "access-tok-ref" (by rfl)
        (by rfl)).2.2 (by rfl) (by decide) (by simp [emptyStore])⟩⟩

/-! ## The sweep -/

theorem map_stamped_of_no_match (t : Int) (cond : StoreItem → Prop) [DecidablePred cond]
    (rows : List StoreItem) (h : ∀ r ∈ rows, ¬ (r.DeletedAt = none ∧ cond r)) :
    rows.map (stamped t cond) = rows := by
  conv_rhs => rw [← List.map_id rows]
  apply List.map_congr_left
  intro a ha
  simp [stamped, h a ha]

theorem mem_map_stamped_live (t : Int) (cond : StoreItem → Prop) [DecidablePred cond]
    (rows : List StoreItem) (r : StoreItem) (hr : r ∈ rows.map (stamped t cond))
    (hlive : r.DeletedAt = none) : r ∈ rows ∧ ¬ cond r := by
  obtain ⟨a, ha, hra⟩ := List.mem_map.mp hr
  unfold stamped at hra
  by_cases hc : a.DeletedAt = none ∧ cond a
  · rw [if_pos hc] at hra
    subst hra
    simp at hlive
  · rw [if_neg hc] at hra
    subst hra
    exact ⟨ha, fun hcond => hc ⟨hlive, hcond⟩⟩

theorem errorf_rows (s : Store) (buf : String) :
    (errorf s buf).rows = s.rows ∧
    (errorf s buf).stdout = s.stdout.map (fun out => out ++ [buf]) := by
  unfold errorf
  cases h : s.stdout <;> simp [h]

theorem gc_one_ok (t : Tick) (s : Store) (hc : t.countErr = none) (hd : t.deleteErr = none) :
    (gc [t] s).store =
      { s with rows := s.rows.map (stamped t.dbNow (fun r => r.ExpiredAt < t.now)) } ∧
    (gc [t] s).returned = false := by
  by_cases hcount :
      (s.rows.filter (fun r => r.live && decide (r.ExpiredAt < t.now))).length > 0
  · simp only [gc, dbCount, hc, hcount, if_true, hd, dbDelete_eq_stamped]
    constructor <;> trivial
  · have hnil : s.rows.filter (fun r => r.live && decide (r.ExpiredAt < t.now)) = [] := by
      apply List.eq_nil_of_length_eq_zero
      omega
    have hnone : ∀ r ∈ s.rows, ¬ (r.DeletedAt = none ∧ r.ExpiredAt < t.now) := by
      intro r hr ⟨h1, h2⟩
      have := List.filter_eq_nil_iff.mp hnil r hr
      simp [StoreItem.live, h1, h2] at this
    simp only [gc, dbCount, hc, hcount, if_false]
    rw [map_stamped_of_no_match _ _ _ hnone]
    constructor <;> trivial

/-- C9: when the count query of a cycle fails with `e`, the cycle writes the line
`[ERROR]:e` to the writer (when there is one), calls `Done` and the loop returns: whatever
ticks follow, the outcome is the same and no row is touched.  When instead the count
succeeds and finds expired rows but the bulk delete fails with `e2`, the line is written,
no row is touched, and the loop goes on with the remaining ticks. -/
theorem gc_count_failure (t : Tick) (rest : List Tick) (s : Store) (e : DBError)
    (h : t.countErr = some e) :
    gc (t :: rest) s =
      { store := errorf s ("[ERROR]:" ++ e.Error ++ "\n"),
        trace := [.wgAdd, .dbCount, .wgDone], returned := true } ∧
    (gc (t :: rest) s).store.rows = s.rows ∧
    (gc (t :: rest) s).store.stdout =
      s.stdout.map (fun out => out ++ ["[ERROR]:" ++ e.Error ++ "\n"]) ∧
    (∀ (t2 : Tick) (s2 : Store) (e2 : DBError),
      t2.countErr = none → t2.deleteErr = some e2 →
      (∃ r ∈ s2.rows, r.DeletedAt = none ∧ r.ExpiredAt < t2.now) →
      (errorf s2 ("[ERROR]:" ++ e2.Error ++ "\n")).rows = s2.rows ∧
      (errorf s2 ("[ERROR]:" ++ e2.Error ++ "\n")).stdout =
        s2.stdout.map (fun out => out ++ ["[ERROR]:" ++ e2.Error ++ "\n"]) ∧
      gc (t2 :: rest) s2 =
        { store := (gc rest (errorf s2 ("[ERROR]:" ++ e2.Error ++ "\n"))).store,
          trace := [.wgAdd, .dbCount, .dbDelete, .wgDone] ++
            (gc rest (errorf s2 ("[ERROR]:" ++ e2.Error ++ "\n"))).trace,
          returned := (gc rest (errorf s2 ("[ERROR]:" ++ e2.Error ++ "\n"))).returned }) := by
  have hgc : gc (t :: rest) s =
      { store := errorf s ("[ERROR]:" ++ e.Error ++ "\n"),
        trace := [.wgAdd, .dbCount, .wgDone], returned := true } := by
    simp [gc, dbCount, h]
  refine ⟨hgc, ?_, ?_, ?_⟩
  · rw [hgc]
    exact (errorf_rows s _).1
  · rw [hgc]
    exact (errorf_rows s _).2
  · intro t2 s2 e2 hc2 hd2 ⟨r, hr, hlive, hexp⟩
    refine ⟨(errorf_rows s2 _).1, (errorf_rows s2 _).2, ?_⟩
    have hcount :
        (s2.rows.filter (fun r => r.live && decide (r.ExpiredAt < t2.now))).length > 0 := by
      apply List.length_pos_of_mem (a := r)
      apply List.mem_filter.mpr
      refine ⟨hr, ?_⟩
      simp [StoreItem.live, hlive, hexp]
    simp only [gc, dbCount, hc2, hcount, if_true, hd2, dbDelete]

/-- Witness for C9: on the store holding the two sample code rows, a failing count with a
further tick pending ends the loop, and a failing delete is followed by the next tick. -/
theorem gc_count_failure_witness :
    tickCountFails.countErr = some (DBError.other "db down") ∧
    gc (tickCountFails :: [tick50]) duplicateStore =
      { store := errorf duplicateStore ("[ERROR]:" ++ (DBError.other "db down").Error ++ "\n"),
        trace := [.wgAdd, .dbCount, .wgDone], returned := true } ∧
    gc (tickDeleteFails :: [tick50]) duplicateStore =
      { store := (gc [tick50] (errorf duplicateStore
          ("[ERROR]:" ++ (DBError.other "locked").Error ++ "\n"))).store,
        trace := [.wgAdd, .dbCount, .dbDelete, .wgDone] ++
          (gc [tick50] (errorf duplicateStore
            ("[ERROR]:" ++ (DBError.other "locked").Error ++ "\n"))).trace,
        returned := (gc [tick50] (errorf duplicateStore
          ("[ERROR]:" ++ (DBError.other "locked").Error ++ "\n"))).returned } :=
  ⟨rfl,
    (gc_count_failure tickCountFails [tick50] duplicateStore (DBError.other "db down") rfl).1,
    ((gc_count_failure tickCountFails [tick50] duplicateStore (DBError.other "db down")
      rfl).2.2.2 tickDeleteFails duplicateStore (DBError.other "locked") rfl rfl
      ⟨{ ID := 1, CreatedAt := 0, UpdatedAt := 0, DeletedAt := none, ExpiredAt := 10,
         Code := "abc", Access := "", Refresh := "", Data := "code-abc-10" },
        by decide, rfl, by decide⟩).2.2⟩

theorem dbDelete_live_mem (fault : Option DBError) (t : Int) (cond : StoreItem → Bool)
    (rows : List StoreItem) (r : StoreItem) (hr : r ∈ (dbDelete fault t cond rows).1)
    (hlive : r.DeletedAt = none) : r ∈ rows := by
  cases fault with
  | some e => simpa [dbDelete] using hr
  | none =>
    simp only [dbDelete, List.mem_map] at hr
    obtain ⟨a, ha, hra⟩ := hr
    by_cases hc : (a.live && cond a) = true
    · rw [if_pos hc] at hra
      subst hra
      simp at hlive
    · rw [if_neg hc] at hra
      subst hra
      exact ha

theorem runRemoves_live_mem (calls : List RemoveCall) (s : Store) (r : StoreItem)
    (hr : r ∈ (runRemoves calls s).rows) (hlive : r.DeletedAt = none) : r ∈ s.rows := by
  induction calls generalizing s with
  | nil => simpa [runRemoves] using hr
  | cons c rest ih =>
    have h1 := ih (c.run s) (by simpa [runRemoves] using hr)
    cases c with
    | byCode fault dbNow key =>
      exact dbDelete_live_mem fault dbNow _ s.rows r (by simpa [RemoveCall.run, RemoveByCode] using h1) hlive
    | byAccess fault dbNow key =>
      exact dbDelete_live_mem fault dbNow _ s.rows r (by simpa [RemoveCall.run, RemoveByAccess] using h1) hlive
    | byRefresh fault dbNow key =>
      exact dbDelete_live_mem fault dbNow _ s.rows r (by simpa [RemoveCall.run, RemoveByRefresh] using h1) hlive

theorem fresh_after_gc (t : Tick) (s : Store) (hc : t.countErr = none)
    (hd : t.deleteErr = none) (r : StoreItem) (hr : r ∈ (gc [t] s).store.rows)
    (hlive : r.DeletedAt = none) : r ∈ s.rows ∧ t.now ≤ r.ExpiredAt := by
  rw [(gc_one_ok t s hc hd).1] at hr
  have := mem_map_stamped_live _ _ _ r hr hlive
  exact ⟨this.1, not_lt.mp this.2⟩

theorem find_of_info_some (codec : JSONCodec) (fault : Option DBError) (key : String)
    (cond : StoreItem → Bool) (rows : List StoreItem) (g : GetResult)
    (hg : g = if key == "" then { info := none, err := none, trace := [] }
      else
        match dbFind fault cond rows with
        | .error err =>
          if IsRecordNotFoundError err then
            { info := none, err := none, trace := [.wgWait, .dbFind] }
          else { info := none, err := some (.db err), trace := [.wgWait, .dbFind] }
        | .ok item =>
          { info := (toTokenInfo codec item.Data).1, err := (toTokenInfo codec item.Data).2,
            trace := [.wgWait, .dbFind] })
    (hinfo : g.info ≠ none) : ∃ item, dbFind fault cond rows = .ok item := by
  subst hg
  by_cases hk : key = ""
  · simp [hk] at hinfo
  · cases hq : dbFind fault cond rows with
    | ok item => exact ⟨item, rfl⟩
    | error e =>
      exfalso
      apply hinfo
      simp only [beq_iff_eq, hk, if_false, hq]
      cases IsRecordNotFoundError e <;> simp

/-- C3 (amended): a sweep cycle at time `now` whose count and delete queries succeed stamps
exactly the live rows with `expiredAt < now` and leaves every other row, among them the
rows with `expiredAt = now`, as it is.  After the cycle, a lookup with a non-empty key
returns not-found whenever every row that was live under that key before the cycle had
`expiredAt < now`: a record whose expiry is earlier than `now` is out of reach unless
another live row shares its key. -/
theorem gc_cycle_sweeps (codec : JSONCodec) (t : Tick) (s : Store) (key : String)
    (hc : t.countErr = none) (hd : t.deleteErr = none) (hkey : key ≠ "") :
    (gc [t] s).store =
      { s with rows := s.rows.map (stamped t.dbNow (fun r => r.ExpiredAt < t.now)) } ∧
    (∀ r ∈ s.rows, t.now ≤ r.ExpiredAt → stamped t.dbNow (fun r => r.ExpiredAt < t.now) r = r) ∧
    (∀ r ∈ s.rows, r.DeletedAt = none → r.ExpiredAt < t.now →
      stamped t.dbNow (fun r => r.ExpiredAt < t.now) r = { r with DeletedAt := some t.dbNow }) ∧
    ((∀ r ∈ s.rows, r.DeletedAt = none → r.Code = key → r.ExpiredAt < t.now) →
      GetByCode codec none key (gc [t] s).store =
        { info := none, err := none, trace := [.wgWait, .dbFind] }) ∧
    ((∀ r ∈ s.rows, r.DeletedAt = none → r.Access = key → r.ExpiredAt < t.now) →
      GetByAccess codec none key (gc [t] s).store =
        { info := none, err := none, trace := [.wgWait, .dbFind] }) ∧
    ((∀ r ∈ s.rows, r.DeletedAt = none → r.Refresh = key → r.ExpiredAt < t.now) →
      GetByRefresh codec none key (gc [t] s).store =
        { info := none, err := none, trace := [.wgWait, .dbFind] }) := by
  have hfresh := fresh_after_gc t s hc hd
  refine ⟨(gc_one_ok t s hc hd).1, ?_, ?_, ?_, ?_, ?_⟩
  · intro r _ hle
    simp [stamped, not_lt.mpr hle]
  · intro r _ hlive hexp
    simp [stamped, hlive, hexp]
  · intro h
    have hfind : dbFind none (fun r => r.Code == key) (gc [t] s).store.rows =
        .error DBError.ErrRecordNotFound := by
      apply dbFind_none_of_no_match
      intro r hr hl
      have hl2 : r.DeletedAt = none := by
        simpa [StoreItem.live, Option.isNone_iff_eq_none] using hl
      obtain ⟨hmem, hle⟩ := hfresh r hr hl2
      have hne : r.Code ≠ key := fun heq => absurd (h r hmem hl2 heq) (not_lt.mpr hle)
      simpa using hne
    simp [GetByCode, hkey, hfind, IsRecordNotFoundError]
  · intro h
    have hfind : dbFind none (fun r => r.Access == key) (gc [t] s).store.rows =
        .error DBError.ErrRecordNotFound := by
      apply dbFind_none_of_no_match
      intro r hr hl
      have hl2 : r.DeletedAt = none := by
        simpa [StoreItem.live, Option.isNone_iff_eq_none] using hl
      obtain ⟨hmem, hle⟩ := hfresh r hr hl2
      have hne : r.Access ≠ key := fun heq => absurd (h r hmem hl2 heq) (not_lt.mpr hle)
      simpa using hne
    simp [GetByAccess, hkey, hfind, IsRecordNotFoundError]
  · intro h
    have hfind : dbFind none (fun r => r.Refresh == key) (gc [t] s).store.rows =
        .error DBError.ErrRecordNotFound := by
      apply dbFind_none_of_no_match
      intro r hr hl
      have hl2 : r.DeletedAt = none := by
        simpa [StoreItem.live, Option.isNone_iff_eq_none] using hl
      obtain ⟨hmem, hle⟩ := hfresh r hr hl2
      have hne : r.Refresh ≠ key := fun heq => absurd (h r hmem hl2 heq) (not_lt.mpr hle)
      simpa using hne
    simp [GetByRefresh, hkey, hfind, IsRecordNotFoundError]

/-- Witness for C3 (amended): the sweep at second 50 on the store holding only the sample
code row (expiry 10) leaves the code `abc` not found. -/
theorem gc_cycle_sweeps_witness :
    tick50.countErr = none ∧ tick50.deleteErr = none ∧ ("abc" : String) ≠ "" ∧
    GetByCode sampleCodec none "abc"
        (gc [tick50] (Create sampleCodec none 0 sampleCode emptyStore).store).store =
      { info := none, err := none, trace := [.wgWait, .dbFind] } :=
  ⟨rfl, rfl, by decide,
    (gc_cycle_sweeps sampleCodec tick50 (Create sampleCodec none 0 sampleCode emptyStore).store
      "abc" rfl rfl (by decide)).2.2.2.1 (by decide)⟩

/-- Counterexample to C3 as stated: the store holds two live rows under the code `abc`,
with expiry 10 and 100.  The sweep at second 50 stamps the first; `GetByCode "abc"` then
returns the second token, not not-found, although the first record's expiry is earlier
than 50. -/
theorem sweep_duplicate_key_counterexample :
    duplicateStore.rows.map (fun r => (r.Code, r.ExpiredAt, r.DeletedAt)) =
      [("abc", 10, none), ("abc", 100, none)] ∧
    (gc [tick50] duplicateStore).store.rows.map (fun r => (r.Code, r.ExpiredAt, r.DeletedAt)) =
      [("abc", 10, some 50), ("abc", 100, none)] ∧
    GetByCode sampleCodec none "abc" (gc [tick50] duplicateStore).store =
      { info := some sampleCodeLong, err := none, trace := [.wgWait, .dbFind] } := by
  decide

/-! ## Lookups and expiry -/

theorem found_row_fresh (fault : Option DBError) (cond : StoreItem → Bool) (t : Tick)
    (s : Store) (calls : List RemoveCall) (hc : t.countErr = none) (hd : t.deleteErr = none)
    (item : StoreItem)
    (h : dbFind fault cond (runRemoves calls (gc [t] s).store).rows = .ok item) :
    item.DeletedAt = none ∧ cond item = true ∧ t.now ≤ item.ExpiredAt := by
  obtain ⟨_, hmem, hlive, hcond⟩ := dbFind_ok_mem h
  have hl2 : item.DeletedAt = none := by
    simpa [StoreItem.live, Option.isNone_iff_eq_none] using hlive
  have hgc := runRemoves_live_mem calls _ item hmem hl2
  exact ⟨hl2, hcond, (fresh_after_gc t s hc hd item hgc hl2).2⟩

/-- C1 (amended): the lookups do not compare `expiredAt` with the clock; what keeps expired
rows away from them is the sweep.  In the store left by a sweep cycle at time `now` whose
count and delete queries succeeded, and after any removal calls that follow it, whenever
`GetByCode`, `GetByAccess` or `GetByRefresh` returns a token-info value, the row it was
read from is live, carries the key and has `expiredAt` not earlier than `now`. -/
theorem GetBy_after_sweep (codec : JSONCodec) (fault : Option DBError) (t : Tick) (s : Store)
    (calls : List RemoveCall) (key : String)
    (hc : t.countErr = none) (hd : t.deleteErr = none) :
    ((GetByCode codec fault key (runRemoves calls (gc [t] s).store)).info ≠ none →
      ∃ item, dbFind fault (fun r => r.Code == key) (runRemoves calls (gc [t] s).store).rows
          = .ok item ∧
        item.DeletedAt = none ∧ item.Code = key ∧ t.now ≤ item.ExpiredAt) ∧
    ((GetByAccess codec fault key (runRemoves calls (gc [t] s).store)).info ≠ none →
      ∃ item, dbFind fault (fun r => r.Access == key) (runRemoves calls (gc [t] s).store).rows
          = .ok item ∧
        item.DeletedAt = none ∧ item.Access = key ∧ t.now ≤ item.ExpiredAt) ∧
    ((GetByRefresh codec fault key (runRemoves calls (gc [t] s).store)).info ≠ none →
      ∃ item, dbFind fault (fun r => r.Refresh == key) (runRemoves calls (gc [t] s).store).rows
          = .ok item ∧
        item.DeletedAt = none ∧ item.Refresh = key ∧ t.now ≤ item.ExpiredAt) := by
  refine ⟨?_, ?_, ?_⟩
  · intro hinfo
    obtain ⟨item, hitem⟩ := find_of_info_some codec fault key _ _ _ (by
      simp only [GetByCode]
      split <;> rfl) hinfo
    obtain ⟨h1, h2, h3⟩ := found_row_fresh fault _ t s calls hc hd item hitem
    exact ⟨item, hitem, h1, by simpa using h2, h3⟩
  · intro hinfo
    obtain ⟨item, hitem⟩ := find_of_info_some codec fault key _ _ _ (by
      simp only [GetByAccess]
      split <;> rfl) hinfo
    obtain ⟨h1, h2, h3⟩ := found_row_fresh fault _ t s calls hc hd item hitem
    exact ⟨item, hitem, h1, by simpa using h2, h3⟩
  · intro hinfo
    obtain ⟨item, hitem⟩ := find_of_info_some codec fault key _ _ _ (by
      simp only [GetByRefresh]
      split <;> rfl) hinfo
    obtain ⟨h1, h2, h3⟩ := found_row_fresh fault _ t s calls hc hd item hitem
    exact ⟨item, hitem, h1, by simpa using h2, h3⟩

/-- Witness for C1 (amended): after the sweep at second 50 on the store with the two
sample code rows and a later `RemoveByAccess "zzz"`, `GetByCode "abc"` reads a row with
expiry at least 50. -/
theorem GetBy_after_sweep_witness :
    tick50.countErr = none ∧ tick50.deleteErr = none ∧
    (GetByCode sampleCodec none "abc"
      (runRemoves [RemoveCall.byAccess none 60 "zzz"] (gc [tick50] duplicateStore).store)).info
        ≠ none ∧
    ∃ item, dbFind none (fun r => r.Code == "abc")
        (runRemoves [RemoveCall.byAccess none 60 "zzz"] (gc [tick50] duplicateStore).store).rows
          = .ok item ∧
      item.DeletedAt = none ∧ item.Code = "abc" ∧ tick50.now ≤ item.ExpiredAt :=
  ⟨rfl, rfl, by decide,
    (GetBy_after_sweep sampleCodec none tick50 duplicateStore
      [RemoveCall.byAccess none 60 "zzz"] "abc" rfl rfl).1 (by decide)⟩

/-- Counterexample to C1 as stated: the store reached from the empty one by creating the
sample code token holds the live row with `expiredAt = 10`; at any later time, say at
second 20, `GetByCode "abc"` still reads that row and returns the token. -/
theorem GetByCode_returns_expired_row :
    dbFind none (fun r => r.Code == "abc")
        (Create sampleCodec none 0 sampleCode emptyStore).store.rows =
      .ok { ID := 1, CreatedAt := 0, UpdatedAt := 0, DeletedAt := none, ExpiredAt := 10,
            Code := "abc", Access := "", Refresh := "", Data := "code-abc-10" } ∧
    ((10 : Int) < 20) ∧
    GetByCode sampleCodec none "abc" (Create sampleCodec none 0 sampleCode emptyStore).store =
      { info := some sampleCode, err := none, trace := [.wgWait, .dbFind] } := by
  refine ⟨by rfl, by decide, by decide⟩

end TokenStore
